import Mathlib

/-!
# Verification of the MCP Task Manager server (`index.js`)

A shallow embedding of the tool-calling core of the Express MCP server:
the JavaScript value model needed by the dispatch code (`Number` coercion,
truthiness, nullish coalescing), the task-store operations (`createTask`,
`listTasks`, `markCompleteByIdOrTitle`, `updateTask`), manifest schema
translation (`toOpenAITools`), the tool dispatcher (`executeTool`), and the
`POST /chat` orchestration turn (duplicate-user check, system-message
insertion, `withTimeout`-bounded completion calls, and the `tool_calls`
dispatch loop).

File I/O (`readTasks` / `writeTasks`) is modelled by explicit state passing
of the task list; the two outbound model-completion calls are modelled by
oracle values carrying a settle delay, raced against the fixed timeout.
-/

namespace MCP

/-- A JavaScript value, restricted to the shapes that can reach the task
dispatch code from JSON-parsed tool arguments plus `undefined` for absent
properties.  Numbers are modelled as integers: every id the store ever
holds is produced by `Date.now()`, and the claims under study involve no
fractional values. -/
inductive JVal where
  | undefined
  | null
  | bool (b : Bool)
  | num (n : Int)
  | str (s : String)
deriving Repr, DecidableEq

/-- JavaScript truthiness (`if (v)`), on the modelled value shapes. -/
def jsTruthy : JVal → Bool
  | .undefined => false
  | .null => false
  | .bool b => b
  | .num n => n != 0
  | .str s => s != ""

/-- JavaScript nullish test: the values `??` and `?.` skip over. -/
def jsNullish : JVal → Bool
  | .undefined => true
  | .null => true
  | _ => false

/-- The nullish-coalescing operator `a ?? b`. -/
def jsCoalesce (a b : JVal) : JVal :=
  if jsNullish a then b else a

/-- Is `c` an ASCII decimal digit? -/
def isDigitChar (c : Char) : Bool :=
  '0' ≤ c && c ≤ '9'

/-- Value of a digit list read as a decimal numeral (most significant first). -/
def digitsToNat : List Char → Nat
  | [] => 0
  | c :: cs => (c.toNat - '0'.toNat) * 10 ^ cs.length + digitsToNat cs

/-- Parse an optionally signed run of decimal digits, `none` otherwise.
Models the integer fragment of JavaScript's `StringNumericLiteral` grammar:
the manifest and the dispatch paths under study never see fractional,
exponent or radix-prefixed literals. -/
def parseSignedDigits (cs : List Char) : Option Int :=
  match cs with
  | [] => none
  | '-' :: rest =>
      if rest ≠ [] && rest.all isDigitChar then some (-(digitsToNat rest : Int)) else none
  | '+' :: rest =>
      if rest ≠ [] && rest.all isDigitChar then some ((digitsToNat rest : Int)) else none
  | _ =>
      if cs.all isDigitChar then some ((digitsToNat cs : Int)) else none

/-- Strip leading and trailing whitespace from a character list. -/
def trimCharList (cs : List Char) : List Char :=
  ((cs.dropWhile Char.isWhitespace).reverse.dropWhile Char.isWhitespace).reverse

/-- `s.trim()`, modelling the ASCII fragment of the whitespace set
JavaScript strips (the titles and queries under study contain no exotic
Unicode spacing). -/
def jsTrim (s : String) : String :=
  ⟨trimCharList s.data⟩

/-- JavaScript `Number(v)` coercion; `none` models `NaN`.  A string is
trimmed first, and a whitespace-only string coerces to `0`. -/
def jsToNumber : JVal → Option Int
  | .undefined => none
  | .null => some 0
  | .bool b => some (if b then 1 else 0)
  | .num n => some n
  | .str s =>
      let t := jsTrim s
      if t = "" then some 0 else parseSignedDigits t.data

/-- ASCII lower-casing, modelling `String.prototype.toLowerCase` on the
character range the store's titles use. -/
def jsToLower (s : String) : String :=
  ⟨s.data.map Char.toLower⟩

/-- Is `needle` a contiguous sublist of `haystack`? -/
def charListInfix (needle : List Char) : List Char → Bool
  | [] => needle.isEmpty
  | c :: rest => needle.isPrefixOf (c :: rest) || charListInfix needle rest

/-- `haystack.includes(needle)`, i.e. substring containment. -/
def jsIncludes (haystack needle : String) : Bool :=
  charListInfix needle.data haystack.data

/-- A stored task.  `id` is always a number (every task is created with
`id: Date.now()` and no code path rewrites it); `title` and `done` hold
whatever JavaScript value the creating or updating call supplied. -/
structure Task where
  id : Int
  title : JVal
  done : JVal
deriving Repr, DecidableEq

/-- `String(task.title || '')`: the dispatcher's guard that turns a falsy
title into the empty string before matching, and otherwise stringifies. -/
def taskTitleString (title : JVal) : String :=
  if jsTruthy title then
    match title with
    | .str s => s
    | .num n => toString n
    | .bool _ => "true"
    | _ => ""
  else ""

/-- The structured result value a tool handler returns (before it is
JSON-encoded into a `tool` message). -/
inductive ToolResult where
  | ok
  | okTask (task : Task)
  | tasksList (tasks : List Task)
  | err (error : String)
deriving Repr, DecidableEq

/-- `createTask(title)`: append a fresh task with `id = Date.now()`
(passed in as `now`), the given title, and `done: false`. -/
def createTask (now : Int) (title : JVal) (tasks : List Task) :
    ToolResult × List Task :=
  let newTask : Task := { id := now, title := title, done := .bool false }
  (.okTask newTask, tasks ++ [newTask])

/-- `listTasks()`: return the store unchanged. -/
def listTasks (tasks : List Task) : ToolResult × List Task :=
  (.tasksList tasks, tasks)

/-- Does `task`'s title contain `q` (an already trimmed, lower-cased query)
as a substring, case-insensitively? -/
def titleMatches (q : String) (task : Task) : Bool :=
  jsIncludes (jsToLower (taskTitleString task.title)) q

/-- The `matched`-flag `map` of `markCompleteByIdOrTitle`'s title path:
mark the first matching task done, leave everything else alone, and report
whether any task matched. -/
def markFirstMatch (q : String) : List Task → Bool × List Task
  | [] => (false, [])
  | task :: rest =>
      if titleMatches q task then
        (true, { task with done := .bool true } :: rest)
      else
        let r := markFirstMatch q rest
        (r.1, task :: r.2)

/-- The title-match fallback of `markCompleteByIdOrTitle`: trim and
lower-case a string query, reject an empty query, otherwise mark the
first case-insensitive substring match (no write happens when nothing
matched). -/
def markCompleteByTitleOnly (idOrTitle : JVal) (tasks : List Task) :
    ToolResult × List Task :=
  let titleQuery :=
    match idOrTitle with
    | .str s => jsToLower (jsTrim s)
    | _ => ""
  if titleQuery = "" then
    (.err "Invalid task ID or missing title", tasks)
  else
    let r := markFirstMatch titleQuery tasks
    if r.1 then (.ok, r.2) else (.err "No task title matched", tasks)

/-- `markCompleteByIdOrTitle(idOrTitle)`.  Numeric path: taken when
`Number(idOrTitle)` is not `NaN` and the value is not `''`, `null` or
`undefined`; marks every task with the coerced id done and reports success
whether or not any task matched.  Otherwise falls back to the title
match. -/
def markCompleteByIdOrTitle (idOrTitle : JVal) (tasks : List Task) :
    ToolResult × List Task :=
  match jsToNumber idOrTitle with
  | some idNum =>
      if idOrTitle ≠ .str "" ∧ idOrTitle ≠ .null ∧ idOrTitle ≠ .undefined then
        (.ok, tasks.map fun task =>
          if task.id = idNum then { task with done := .bool true } else task)
      else
        markCompleteByTitleOnly idOrTitle tasks
  | none => markCompleteByTitleOnly idOrTitle tasks

/-- `updateTask({id, title, done})`: reject a `NaN` id or a falsy title
combined with an absent `done`; otherwise merge the provided (non-absent)
fields onto every task whose id matches and report success regardless of
whether any task matched. -/
def updateTask (id title done : JVal) (tasks : List Task) :
    ToolResult × List Task :=
  match jsToNumber id with
  | none => (.err "Invalid task ID or missing title/done status", tasks)
  | some idNum =>
      if !jsTruthy title ∧ done = .undefined then
        (.err "Invalid task ID or missing title/done status", tasks)
      else
        (.ok, tasks.map fun task =>
          if task.id = idNum then
            { task with
              title := if title ≠ .undefined then title else task.title
              done := if done ≠ .undefined then done else task.done }
          else task)

/-- The parsed argument object handed to `executeTool`: the properties the
dispatcher reads, each `undefined` when absent. -/
structure JInput where
  id : JVal := .undefined
  title : JVal := .undefined
  name : JVal := .undefined
  task : JVal := .undefined
  query : JVal := .undefined
  done : JVal := .undefined
deriving Repr, DecidableEq

/-- The identifier resolution of the `mark-complete` dispatch case:
`input?.id ?? input?.title ?? input?.name ?? input?.task ?? input?.query`. -/
def resolveMarkCompleteId (input : JInput) : JVal :=
  jsCoalesce input.id
    (jsCoalesce input.title
      (jsCoalesce input.name
        (jsCoalesce input.task input.query)))

/-- `executeTool(toolName, input)`: dispatch by tool name, with an
`Unknown tool` error result as the default branch. -/
def executeTool (toolName : String) (input : JInput) (tasks : List Task)
    (now : Int) : ToolResult × List Task :=
  if toolName = "create-task" then
    createTask now input.title tasks
  else if toolName = "list-tasks" then
    listTasks tasks
  else if toolName = "mark-complete" then
    markCompleteByIdOrTitle (resolveMarkCompleteId input) tasks
  else if toolName = "update-task" then
    updateTask input.id input.title input.done tasks
  else
    (.err ("Unknown tool: " ++ toolName), tasks)

/-- A JSON value, as loaded from `manifest.json` (a tool's `inputSchema`
field).  Objects are association lists in document order; `manifest.json`
declares no duplicate keys. -/
inductive Json where
  | null
  | bool (b : Bool)
  | num (n : Int)
  | str (s : String)
  | arr (items : List Json)
  | obj (fields : List (String × Json))
deriving Repr

/-- JavaScript truthiness of a JSON value (arrays and objects, even empty
ones, are truthy). -/
def jsonTruthy : Json → Bool
  | .null => false
  | .bool b => b
  | .num n => n != 0
  | .str s => s != ""
  | .arr _ => true
  | .obj _ => true

/-- `schema.type`: the `type` property when the value is an object,
`undefined` (here `none`) otherwise. -/
def jsonTypeField : Json → Option Json
  | .obj fields => fields.lookup "type"
  | _ => none

/-- `schema.type === 'object'`. -/
def jsonIsObjectTyped (j : Json) : Bool :=
  match jsonTypeField j with
  | some (.str s) => s == "object"
  | _ => false

/-- The substituted empty-object schema `{type:'object', properties:{}}`. -/
def emptyObjectSchema : Json :=
  .obj [("type", .str "object"), ("properties", .obj [])]

/-- A tool descriptor from the manifest: `name`, optional `description`,
and an optional `inputSchema` (`none` models an absent property;
`some .null` an explicit `null`). -/
structure ManifestTool where
  name : String
  description : Option String
  inputSchema : Option Json

/-- The `function` object of one translated tool (the constant
`type:'function'` wrapper is left implicit). -/
structure FunctionSchema where
  name : String
  description : String
  parameters : Json

/-- `toOpenAITools(manifestConfig)`: translate every manifest tool
descriptor into an OpenAI function schema.  A falsy `inputSchema` is
replaced by the empty-object schema up front, and any parameters value
whose declared type is not `'object'` is replaced by the empty-object
schema as well. -/
def toOpenAITools (manifestTools : List ManifestTool) : List FunctionSchema :=
  manifestTools.map fun tool =>
    let params :=
      match tool.inputSchema with
      | some s => if jsonTruthy s then s else emptyObjectSchema
      | none => emptyObjectSchema
    if !jsonIsObjectTyped params then
      { name := tool.name
        description := tool.description.getD ""
        parameters := emptyObjectSchema }
    else
      { name := tool.name
        description := tool.description.getD ""
        parameters := params }

/-- The parameters value the specification's words prescribe for one
descriptor: if the descriptor's `inputSchema` is present and its declared
type is `object`, pass it through unchanged; otherwise substitute the
empty-object schema.  Stated separately from `toOpenAITools` so the
translation can be proved to refine it. -/
def specParameters (tool : ManifestTool) : Json :=
  match tool.inputSchema with
  | some s => if jsonIsObjectTyped s then s else emptyObjectSchema
  | none => emptyObjectSchema

/-- One entry of an assistant message's `tool_calls` array.  The
`arguments` string is modelled by its JSON parse (`args`); an empty or
absent arguments string parses to the all-absent input `{}`. -/
structure ToolCall where
  id : String
  name : String
  args : JInput
deriving Repr, DecidableEq

/-- A transcript message.  A `tool` message's `content` is the
`JSON.stringify` of the dispatch result; since that serialization is
injective on `ToolResult`, the model carries the result value itself. -/
inductive Message where
  | system (content : String)
  | user (content : String)
  | assistant (content : String) (tool_calls : List ToolCall)
  | tool (tool_call_id : String) (content : ToolResult)
deriving Repr, DecidableEq

/-- The `for (const toolCall of assistantMessage.tool_calls)` loop of the
`/chat` handler: dispatch each requested call against the evolving store
and push one `tool` message per call onto the transcript. -/
def runToolCalls (tcs : List ToolCall) (convo : List Message)
    (tasks : List Task) (now : Int) : List Message × List Task :=
  match tcs with
  | [] => (convo, tasks)
  | tc :: rest =>
      let r := executeTool tc.name tc.args tasks now
      runToolCalls rest (convo ++ [Message.tool tc.id r.1]) r.2 now

/-- The store state after the first `i` dispatches of `tcs` (used to say
which store each appended tool message's result was computed against). -/
def storeBefore (tcs : List ToolCall) (tasks : List Task) (now : Int)
    (i : Nat) : List Task :=
  (runToolCalls (tcs.take i) [] tasks now).2

/-- An assistant message as returned by the completion endpoint. -/
structure AssistantMsg where
  content : String
  tool_calls : List ToolCall
deriving Repr, DecidableEq

/-- An outbound asynchronous call, modelled by its eventual outcome and
the delay (in milliseconds) after which it settles. -/
inductive Async (α : Type) where
  | resolves (value : α) (delayMs : Nat)
  | rejects (errMsg : String) (delayMs : Nat)

/-- The settle delay of an asynchronous call. -/
def Async.delay : Async α → Nat
  | .resolves _ t => t
  | .rejects _ t => t

/-- The fixed deadline for outbound completion calls. -/
def TIMEOUT_MS : Nat := 5000

/-- `withTimeout(promise, label)`: race the call against a timer that
rejects with `` `${label} timed out after ${TIMEOUT_MS}ms` `` after the
fixed deadline.  A call that has not settled strictly before the deadline
loses the race (`setTimeout` fires no earlier than its delay; the model
resolves the simultaneous tick in the timer's favour). -/
def withTimeout (p : Async α) (label : String) : Except String α :=
  if TIMEOUT_MS ≤ p.delay then
    .error (label ++ " timed out after " ++ toString TIMEOUT_MS ++ "ms")
  else
    match p with
    | .resolves v _ => .ok v
    | .rejects e _ => .error e

/-- The body of a `POST /chat` request: `message` (absent when the key is
missing or falsy-typed away by the handler) and `messages` (`none` when the
field is not an array, in which case the handler starts from `[]`). -/
structure ChatRequest where
  message : Option String
  messages : Option (List Message)

/-- The success payload of a `/chat` turn: the final assistant message and
the whole updated transcript. -/
structure ChatResponse where
  message : Message
  messages : List Message
deriving DecidableEq

/-- The duplicate-user check of the `/chat` handler: append
`{role:'user', content: message}` unless `message` is falsy or the
transcript's last entry is already a `user` message with identical
content. -/
def appendUserMessage (convo : List Message) (message : Option String) :
    List Message :=
  match message with
  | none => convo
  | some m =>
      if m = "" then convo
      else
        let alreadyAdded :=
          match convo.getLast? with
          | some (Message.user c) => c == m
          | _ => false
        if alreadyAdded then convo else convo ++ [Message.user m]

/-- Prepend the default system message unless some entry already has the
`system` role. -/
def ensureSystem (convo : List Message) : List Message :=
  if convo.any fun m => match m with | .system _ => true | _ => false then
    convo
  else
    Message.system "You are an AI agent that can call MCP tools." :: convo

/-- One `POST /chat` orchestration turn.  `hasClient` is whether an API
key was configured; `first` and `followUp` are the oracle outcomes of the
two outbound completion calls; the returned `List Task` is the store
state after the turn (the error branch returns only the error message to
the HTTP caller — no transcript).  Tool dispatch happens between the two
completion calls, so a follow-up failure still leaves the dispatched
mutations in the store. -/
def chatTurn (hasClient : Bool) (req : ChatRequest)
    (first followUp : Async AssistantMsg) (tasks : List Task) (now : Int) :
    Except String ChatResponse × List Task :=
  if !hasClient then
    (.error "Missing OPENAI_API_KEY. Add it to .env and restart the server.",
      tasks)
  else
    let convo0 := req.messages.getD []
    let convo1 := appendUserMessage convo0 req.message
    let convo2 := ensureSystem convo1
    match withTimeout first "OpenAI chat completion" with
    | .error e => (.error e, tasks)
    | .ok am =>
        let assistantMessage := Message.assistant am.content am.tool_calls
        let convo3 := convo2 ++ [assistantMessage]
        if am.tool_calls.isEmpty then
          (.ok ⟨assistantMessage, convo3⟩, tasks)
        else
          let r := runToolCalls am.tool_calls convo3 tasks now
          match withTimeout followUp "OpenAI follow-up completion" with
          | .error e => (.error e, r.2)
          | .ok fm =>
              let finalMessage := Message.assistant fm.content fm.tool_calls
              (.ok ⟨finalMessage, r.1 ++ [finalMessage]⟩, r.2)

/-! ## Theorems -/

/-- A falsy JSON value is never object-typed (it has no `type` field). -/
theorem jsonIsObjectTyped_of_not_truthy (s : Json) (h : jsonTruthy s = false) :
    jsonIsObjectTyped s = false := by
  cases s <;> simp_all [jsonTruthy, jsonIsObjectTyped, jsonTypeField]

/-- The empty-object schema is object-typed. -/
theorem jsonIsObjectTyped_emptyObjectSchema :
    jsonIsObjectTyped emptyObjectSchema = true := rfl

/-- C2: For every tool descriptor in the manifest, schema translation
yields a function schema with the descriptor's name, its description
(empty string if absent), and parameters; the parameters are the
descriptor's `inputSchema` passed through unchanged exactly when that
schema is present and declares type `object`, and are the empty-object
schema `{type:'object', properties:{}}` otherwise; the translation is a
per-descriptor map, so no descriptor is rejected. -/
theorem c2_schema_translation_total (manifestTools : List ManifestTool) :
    (toOpenAITools manifestTools).length = manifestTools.length ∧
      toOpenAITools manifestTools =
        manifestTools.map fun tool =>
          { name := tool.name
            description := tool.description.getD ""
            parameters := specParameters tool } := by
  have hfun : ∀ tool : ManifestTool,
      (let params :=
        match tool.inputSchema with
        | some s => if jsonTruthy s then s else emptyObjectSchema
        | none => emptyObjectSchema
      if !jsonIsObjectTyped params then
        ({ name := tool.name, description := tool.description.getD ""
           parameters := emptyObjectSchema } : FunctionSchema)
      else
        { name := tool.name, description := tool.description.getD ""
          parameters := params }) =
      { name := tool.name, description := tool.description.getD ""
        parameters := specParameters tool } := by
    intro tool
    simp only [specParameters]
    cases hschema : tool.inputSchema with
    | none => simp [jsonIsObjectTyped_emptyObjectSchema]
    | some s =>
        by_cases htr : jsonTruthy s
        · simp only [htr, if_true]
          by_cases hobj : jsonIsObjectTyped s
          · simp [hobj]
          · simp [Bool.of_not_eq_true hobj]
        · have hfalse : jsonTruthy s = false := Bool.of_not_eq_true htr
          have hntyped := jsonIsObjectTyped_of_not_truthy s hfalse
          simp [hfalse, hntyped, jsonIsObjectTyped_emptyObjectSchema]
  constructor
  · simp [toOpenAITools]
  · simp only [toOpenAITools]
    exact List.map_congr_left fun tool _ => hfun tool

/-- C5: The `mark-complete` dispatch case resolves the identifier by
checking `id`, `title`, `name`, `task`, `query` in exactly that precedence
order, using the first value that is neither absent nor null; when all
five are absent or null the resolution falls through to the `query` value;
and the dispatcher hands the resolved value to `markCompleteByIdOrTitle`.
In particular `{id: 5, title: 'foo'}` resolves via `id` to `5`. -/
theorem c5_mark_complete_precedence (input : JInput) :
    (jsNullish input.id = false → resolveMarkCompleteId input = input.id) ∧
    (jsNullish input.id = true → jsNullish input.title = false →
      resolveMarkCompleteId input = input.title) ∧
    (jsNullish input.id = true → jsNullish input.title = true →
      jsNullish input.name = false →
      resolveMarkCompleteId input = input.name) ∧
    (jsNullish input.id = true → jsNullish input.title = true →
      jsNullish input.name = true → jsNullish input.task = false →
      resolveMarkCompleteId input = input.task) ∧
    (jsNullish input.id = true → jsNullish input.title = true →
      jsNullish input.name = true → jsNullish input.task = true →
      resolveMarkCompleteId input = input.query) ∧
    (∀ tasks now, executeTool "mark-complete" input tasks now =
      markCompleteByIdOrTitle (resolveMarkCompleteId input) tasks) := by
  refine ⟨?_, ?_, ?_, ?_, ?_, ?_⟩
  · intro h; simp [resolveMarkCompleteId, jsCoalesce, h]
  · intro h1 h2; simp [resolveMarkCompleteId, jsCoalesce, h1, h2]
  · intro h1 h2 h3; simp [resolveMarkCompleteId, jsCoalesce, h1, h2, h3]
  · intro h1 h2 h3 h4
    simp [resolveMarkCompleteId, jsCoalesce, h1, h2, h3, h4]
  · intro h1 h2 h3 h4
    simp [resolveMarkCompleteId, jsCoalesce, h1, h2, h3, h4]
  · intro tasks now; rfl

/-- Witness for C5: the input `{id: 5, title: 'foo'}` resolves to `5`. -/
theorem c5_witness :
    resolveMarkCompleteId
      { id := .num 5, title := .str "foo", name := .undefined
        task := .undefined, query := .undefined, done := .undefined } =
      .num 5 :=
  (c5_mark_complete_precedence _).1 rfl

/-- C6: The `/chat` user-append step is idempotent against duplicate
submission: when the transcript's last entry is already a `user` message
whose content equals the (nonempty) incoming message, nothing is appended;
for any other transcript the user message is appended exactly once, at the
end. -/
theorem c6_idempotent_user_append (convo : List Message) (m : String)
    (h : m ≠ "") :
    appendUserMessage convo (some m) =
      if convo.getLast? = some (Message.user m) then convo
      else convo ++ [Message.user m] := by
  simp only [appendUserMessage, if_neg h]
  cases hlast : convo.getLast? with
  | none => simp
  | some msg =>
      cases msg with
      | user c =>
          by_cases hc : c = m
          · simp [hc]
          · simp [hc, Ne.symm hc]
      | system c => simp
      | assistant c tcs => simp
      | tool i c => simp

/-- Witness for C6: re-submitting `hi` against a transcript already ending
in `user hi` leaves the transcript unchanged. -/
theorem c6_witness :
    appendUserMessage [Message.user "hi"] (some "hi") =
      if ([Message.user "hi"] : List Message).getLast? =
          some (Message.user "hi") then [Message.user "hi"]
      else [Message.user "hi"] ++ [Message.user "hi"] :=
  c6_idempotent_user_append [Message.user "hi"] "hi" (by decide)

/-- C7: When the first outbound completion call exceeds the fixed
`TIMEOUT_MS = 5000` deadline, the turn fails with exactly the message
`OpenAI chat completion timed out after 5000ms`; the task store is
untouched (no tool dispatch occurred) and the failure carries no
transcript (the error branch returns only the message to the caller). -/
theorem c7_first_completion_timeout (req : ChatRequest)
    (first followUp : Async AssistantMsg) (tasks : List Task) (now : Int)
    (h : TIMEOUT_MS < first.delay) :
    chatTurn true req first followUp tasks now =
      (.error "OpenAI chat completion timed out after 5000ms", tasks) := by
  have htimeout : withTimeout first "OpenAI chat completion" =
      .error "OpenAI chat completion timed out after 5000ms" := by
    simp [withTimeout, Nat.le_of_lt h]
    rfl
  simp [chatTurn, htimeout]

/-- Witness for C7: a completion settling after 6000ms times out and
leaves the store unchanged. -/
theorem c7_witness :
    chatTurn true ⟨some "hi", none⟩
      (Async.resolves ⟨"ok", []⟩ 6000) (Async.resolves ⟨"done", []⟩ 0)
      [] 0 =
      (.error "OpenAI chat completion timed out after 5000ms", []) :=
  c7_first_completion_timeout ⟨some "hi", none⟩
    (Async.resolves ⟨"ok", []⟩ 6000) (Async.resolves ⟨"done", []⟩ 0)
    [] 0 (by decide)

/-- C8: Dispatching any tool name outside the four known tools returns
exactly the structured result `{success:false, error:'Unknown tool: '}`
with the offending name appended, leaves the store untouched, and (being a
total function) never raises. -/
theorem c8_unknown_tool (toolName : String) (input : JInput)
    (tasks : List Task) (now : Int)
    (h : toolName ∉ ["create-task", "list-tasks", "mark-complete",
      "update-task"]) :
    executeTool toolName input tasks now =
      (.err ("Unknown tool: " ++ toolName), tasks) := by
  have h1 : toolName ≠ "create-task" := fun e => h (by simp [e])
  have h2 : toolName ≠ "list-tasks" := fun e => h (by simp [e])
  have h3 : toolName ≠ "mark-complete" := fun e => h (by simp [e])
  have h4 : toolName ≠ "update-task" := fun e => h (by simp [e])
  simp [executeTool, h1, h2, h3, h4]

/-- Witness for C8: dispatching `delete-everything` reports it as an
unknown tool. -/
theorem c8_witness :
    executeTool "delete-everything" {} [] 0 =
      (.err "Unknown tool: delete-everything", []) :=
  c8_unknown_tool "delete-everything" {} [] 0 (by decide)

/-- Lower-casing a nonempty string yields a nonempty string. -/
theorem jsToLower_ne_empty (t : String) (h : t ≠ "") : jsToLower t ≠ "" := by
  intro he
  apply h
  cases t with
  | mk data =>
      cases data with
      | nil => rfl
      | cons c cs =>
          have hd := congrArg String.data he
          simp [jsToLower] at hd

/-- A string coercing to `NaN` has a nonempty trim (a whitespace-only
string coerces to `0`). -/
theorem jsTrim_ne_of_nan (s : String) (h : jsToNumber (.str s) = none) :
    jsTrim s ≠ "" := by
  intro he
  simp [jsToNumber, he] at h

/-- A string coercing to `NaN` sends `markCompleteByIdOrTitle` to the
title-match fallback. -/
theorem markComplete_str_nan (s : String) (tasks : List Task)
    (h : jsToNumber (.str s) = none) :
    markCompleteByIdOrTitle (.str s) tasks =
      markCompleteByTitleOnly (.str s) tasks := by
  simp [markCompleteByIdOrTitle, h]

/-- When no title matches the query, the first-match scan reports no
match. -/
theorem markFirstMatch_none (q : String) (tasks : List Task)
    (h : tasks.any (titleMatches q) = false) :
    (markFirstMatch q tasks).1 = false := by
  induction tasks with
  | nil => rfl
  | cons t ts ih =>
      simp only [List.any_cons, Bool.or_eq_false_iff] at h
      simp [markFirstMatch, h.1, ih h.2]

/-- When some title matches the query, the store splits as a match-free
prefix, the first matching task, and an untouched suffix, and the
first-match scan marks exactly that task done. -/
theorem markFirstMatch_spec (q : String) (tasks : List Task)
    (h : tasks.any (titleMatches q) = true) :
    ∃ pre x post,
      tasks = pre ++ x :: post ∧
      (∀ t ∈ pre, titleMatches q t = false) ∧
      titleMatches q x = true ∧
      markFirstMatch q tasks =
        (true, pre ++ { x with done := .bool true } :: post) := by
  induction tasks with
  | nil => simp at h
  | cons t ts ih =>
      by_cases ht : titleMatches q t
      · exact ⟨[], t, ts, rfl, by simp, ht, by simp [markFirstMatch, ht]⟩
      · have hts : ts.any (titleMatches q) = true := by
          simp only [List.any_cons, Bool.or_eq_true] at h
          rcases h with h | h
          · exact absurd h ht
          · exact h
        obtain ⟨pre, x, post, he, hpre, hx, hmk⟩ := ih hts
        refine ⟨t :: pre, x, post, by rw [he, List.cons_append], ?_, hx, ?_⟩
        · intro u hu
          rcases List.mem_cons.mp hu with rfl | hu
          · exact Bool.of_not_eq_true ht
          · exact hpre u hu
        · simp [markFirstMatch, ht, hmk]

/-- Mapping a function that fixes every element of a list is the
identity. -/
theorem map_eq_self_of_fixed {α : Type} (f : α → α) (l : List α)
    (h : ∀ a ∈ l, f a = a) : l.map f = l := by
  induction l with
  | nil => rfl
  | cons a l ih => simp [h a (by simp), ih fun b hb => h b (by simp [hb])]

/-- C3 fails as stated: a numeric identifier that equals no stored task's
id still yields `{success:true}` — dispatching `mark-complete` with id
`999` against a store holding only id `1` returns the success result, not
a `{success:false, error}` value. -/
theorem c3_counterexample :
    markCompleteByIdOrTitle (.num 999) [⟨1, .str "a", .bool false⟩] =
      (.ok, [⟨1, .str "a", .bool false⟩]) := rfl

/-- C3 (amended): the mark-complete dispatch returns a structured
`{success:false, error}` value — never raising — when no identifier is
resolvable (absent, null, or the empty string) or when a non-numeric
identifier matches no stored title; but an identifier that coerces to a
number always yields `{success:true}`, even when it equals no stored
task's id. -/
theorem c3_amended_recoverable_failures (tasks : List Task) :
    markCompleteByIdOrTitle .undefined tasks =
      (.err "Invalid task ID or missing title", tasks) ∧
    markCompleteByIdOrTitle .null tasks =
      (.err "Invalid task ID or missing title", tasks) ∧
    markCompleteByIdOrTitle (.str "") tasks =
      (.err "Invalid task ID or missing title", tasks) ∧
    (∀ s : String, jsToNumber (.str s) = none →
      tasks.any (titleMatches (jsToLower (jsTrim s))) = false →
      markCompleteByIdOrTitle (.str s) tasks =
        (.err "No task title matched", tasks)) ∧
    (∀ (v : JVal) (n : Int), jsToNumber v = some n → v ≠ .str "" →
      v ≠ .null → v ≠ .undefined →
      (markCompleteByIdOrTitle v tasks).1 = .ok) := by
  refine ⟨rfl, rfl, rfl, ?_, ?_⟩
  · intro s hnum hnone
    rw [markComplete_str_nan s tasks hnum]
    have hq : jsToLower (jsTrim s) ≠ "" :=
      jsToLower_ne_empty _ (jsTrim_ne_of_nan s hnum)
    simp [markCompleteByTitleOnly, hq, markFirstMatch_none _ _ hnone]
  · intro v n hv h1 h2 h3
    simp [markCompleteByIdOrTitle, hv, h1, h2, h3]

/-- Witness for C3 (amended): a query matching no title fails
recoverably. -/
theorem c3_witness :
    markCompleteByIdOrTitle (.str "zzz") [⟨1, .str "bar", .bool false⟩] =
      (.err "No task title matched", [⟨1, .str "bar", .bool false⟩]) :=
  (c3_amended_recoverable_failures [⟨1, .str "bar", .bool false⟩]).2.2.2.1
    "zzz" (by decide) (by decide)

/-- C4 fails as stated: `id` plus a provided `title` does not always
succeed — an empty-string title is falsy, so `update-task` with a valid
id and `title: ''` (and no `done`) returns the failure result. -/
theorem c4_counterexample :
    updateTask (.num 1) (.str "") .undefined [⟨1, .str "a", .bool false⟩] =
      (.err "Invalid task ID or missing title/done status",
        [⟨1, .str "a", .bool false⟩]) := rfl

/-- C4 (amended): `update-task` fails exactly when the id's numeric
coercion is `NaN` or the title is falsy (absent or empty string) while
`done` is absent; providing a numeric-coercible id plus a truthy title or
a present `done` succeeds, applying a partial merge of the provided
(non-absent) fields onto every task whose id matches, and returns
`{success:true}` even if no stored task has that id. -/
theorem c4_amended_update_task (id title done : JVal) (tasks : List Task) :
    ((updateTask id title done tasks).1 =
        .err "Invalid task ID or missing title/done status" ↔
      jsToNumber id = none ∨
        (jsTruthy title = false ∧ done = .undefined)) ∧
    (∀ n : Int, jsToNumber id = some n →
      jsTruthy title = true ∨ done ≠ .undefined →
      updateTask id title done tasks =
        (.ok, tasks.map fun task =>
          if task.id = n then
            { task with
              title := if title ≠ .undefined then title else task.title
              done := if done ≠ .undefined then done else task.done }
          else task) ∧
      ((∀ t ∈ tasks, t.id ≠ n) →
        updateTask id title done tasks = (.ok, tasks))) := by
  constructor
  · cases hid : jsToNumber id with
    | none => simp [updateTask, hid]
    | some n =>
        by_cases hc : jsTruthy title = false ∧ done = .undefined
        · simp [updateTask, hid, hc.1, hc.2]
        · have hne : ¬(!jsTruthy title ∧ done = .undefined) := by
            intro ⟨ha, hb⟩
            exact hc ⟨by simpa using ha, hb⟩
          simp only [updateTask, hid, if_neg hne]
          constructor
          · intro habs; exact absurd habs (by simp)
          · rintro (h | h)
            · exact absurd h (by simp)
            · exact absurd h hc
  · intro n hn hok
    have hne : ¬(!jsTruthy title ∧ done = .undefined) := by
      rintro ⟨ha, hb⟩
      rcases hok with h | h
      · rw [h] at ha; exact absurd ha (by simp)
      · exact h hb
    have heq : updateTask id title done tasks =
        (.ok, tasks.map fun task =>
          if task.id = n then
            { task with
              title := if title ≠ .undefined then title else task.title
              done := if done ≠ .undefined then done else task.done }
          else task) := by
      simp only [updateTask, hn, if_neg hne]
    refine ⟨heq, fun hno => ?_⟩
    rw [heq]
    congr 1
    exact map_eq_self_of_fixed _ tasks fun t ht => by
      simp [if_neg (hno t ht)]

/-- Witness for C4 (amended): a valid id with a truthy title succeeds and
leaves a store with no matching id unchanged. -/
theorem c4_witness :
    updateTask (.num 5) (.str "hi") .undefined [⟨1, .str "a", .bool false⟩] =
      (.ok, [⟨1, .str "a", .bool false⟩]) :=
  ((c4_amended_update_task (.num 5) (.str "hi") .undefined
      [⟨1, .str "a", .bool false⟩]).2 5 rfl (Or.inl rfl)).2 (by decide)

/-- C9: When `mark-complete` resolves a non-numeric string identifier, the
store splits as a match-free prefix, the first task (in store order) whose
title contains the trimmed lower-cased query case-insensitively, and an
untouched suffix: only that task changes, only its `done` field is set to
`true`, and the store's length and order are preserved; when no title
matches, the store is returned entirely unchanged. -/
theorem c9_title_match_frame (s : String) (tasks : List Task)
    (hnum : jsToNumber (.str s) = none) :
    (tasks.any (titleMatches (jsToLower (jsTrim s))) = true →
      ∃ pre x post,
        tasks = pre ++ x :: post ∧
        (∀ t ∈ pre, titleMatches (jsToLower (jsTrim s)) t = false) ∧
        titleMatches (jsToLower (jsTrim s)) x = true ∧
        markCompleteByIdOrTitle (.str s) tasks =
          (.ok, pre ++ { x with done := .bool true } :: post)) ∧
    (tasks.any (titleMatches (jsToLower (jsTrim s))) = false →
      markCompleteByIdOrTitle (.str s) tasks =
        (.err "No task title matched", tasks)) := by
  have hq : jsToLower (jsTrim s) ≠ "" :=
    jsToLower_ne_empty _ (jsTrim_ne_of_nan s hnum)
  constructor
  · intro hmatch
    obtain ⟨pre, x, post, he, hpre, hx, hmk⟩ :=
      markFirstMatch_spec (jsToLower (jsTrim s)) tasks hmatch
    refine ⟨pre, x, post, he, hpre, hx, ?_⟩
    rw [markComplete_str_nan s tasks hnum]
    simp [markCompleteByTitleOnly, hq, hmk]
  · intro hnone
    rw [markComplete_str_nan s tasks hnum]
    simp [markCompleteByTitleOnly, hq, markFirstMatch_none _ _ hnone]

/-- Witness for C9: the query `FOO` marks the second task (the first
case-insensitive match) and touches nothing else. -/
theorem c9_witness :
    ∃ pre x post,
      ([⟨1, .str "bar", .bool false⟩, ⟨2, .str "my Foo task", .bool false⟩,
        ⟨3, .str "food", .bool false⟩] : List Task) = pre ++ x :: post ∧
      (∀ t ∈ pre, titleMatches (jsToLower (jsTrim "FOO")) t = false) ∧
      titleMatches (jsToLower (jsTrim "FOO")) x = true ∧
      markCompleteByIdOrTitle (.str "FOO")
          [⟨1, .str "bar", .bool false⟩, ⟨2, .str "my Foo task", .bool false⟩,
            ⟨3, .str "food", .bool false⟩] =
        (.ok, pre ++ { x with done := .bool true } :: post) :=
  (c9_title_match_frame "FOO"
    [⟨1, .str "bar", .bool false⟩, ⟨2, .str "my Foo task", .bool false⟩,
      ⟨3, .str "food", .bool false⟩] (by decide)).1 (by decide)

/-- C10 fails as stated: a whitespace-only identifier does take the
numeric path — `Number(' ')` is `0`, the string differs from `''`, so the
guard passes and a task with id `0` is marked done with `{success:true}`,
instead of the claimed `{success:false}` error. -/
theorem c10_counterexample :
    markCompleteByIdOrTitle (.str " ") [⟨0, .str "x", .bool false⟩] =
      (.ok, [⟨0, .str "x", .bool true⟩]) := rfl

/-- C10 (amended): an absent, null, or empty-string identifier avoids the
numeric path and yields the `Invalid task ID or missing title` error; but
a whitespace-only (nonempty, trimming to empty) string coerces to `0`,
takes the numeric path, marks every task with id `0` done, and returns
`{success:true}`. -/
theorem c10_amended_empty_identifier_guards (tasks : List Task) :
    markCompleteByIdOrTitle (.str "") tasks =
      (.err "Invalid task ID or missing title", tasks) ∧
    markCompleteByIdOrTitle .null tasks =
      (.err "Invalid task ID or missing title", tasks) ∧
    markCompleteByIdOrTitle .undefined tasks =
      (.err "Invalid task ID or missing title", tasks) ∧
    (∀ s : String, s ≠ "" → jsTrim s = "" →
      markCompleteByIdOrTitle (.str s) tasks =
        (.ok, tasks.map fun task =>
          if task.id = 0 then { task with done := .bool true } else task)) := by
  refine ⟨rfl, rfl, rfl, ?_⟩
  intro s h1 h2
  have hnum : jsToNumber (.str s) = some 0 := by
    simp [jsToNumber, h2]
  simp [markCompleteByIdOrTitle, hnum, h1]

/-- The tool-call loop only ever appends: running it with transcript
`convo` produces `convo` followed by what a run from the empty transcript
produces, and the final store does not depend on the transcript. -/
theorem runToolCalls_accum (tcs : List ToolCall) (convo : List Message)
    (tasks : List Task) (now : Int) :
    runToolCalls tcs convo tasks now =
      (convo ++ (runToolCalls tcs [] tasks now).1,
        (runToolCalls tcs [] tasks now).2) := by
  induction tcs generalizing convo tasks with
  | nil => simp [runToolCalls]
  | cons tc rest ih =>
      simp only [runToolCalls, List.nil_append]
      rw [ih (convo ++ [Message.tool tc.id
            (executeTool tc.name tc.args tasks now).1]),
        ih [Message.tool tc.id (executeTool tc.name tc.args tasks now).1]]
      simp

/-- Unfolding the tool-call loop one request at a time, from the empty
transcript. -/
theorem runToolCalls_cons (tc : ToolCall) (rest : List ToolCall)
    (tasks : List Task) (now : Int) :
    runToolCalls (tc :: rest) [] tasks now =
      (Message.tool tc.id (executeTool tc.name tc.args tasks now).1 ::
        (runToolCalls rest [] (executeTool tc.name tc.args tasks now).2
          now).1,
        (runToolCalls rest [] (executeTool tc.name tc.args tasks now).2
          now).2) := by
  simp only [runToolCalls]
  rw [runToolCalls_accum]
  simp

/-- The tool-call loop emits exactly one message per request. -/
theorem runToolCalls_nil_length (tcs : List ToolCall) (tasks : List Task)
    (now : Int) :
    (runToolCalls tcs [] tasks now).1.length = tcs.length := by
  induction tcs generalizing tasks with
  | nil => rfl
  | cons tc rest ih => rw [runToolCalls_cons]; simp [ih]

/-- Peeling one dispatch off the evolving-store tracker. -/
theorem storeBefore_succ (tc : ToolCall) (rest : List ToolCall)
    (tasks : List Task) (now : Int) (i : Nat) :
    storeBefore (tc :: rest) tasks now (i + 1) =
      storeBefore rest (executeTool tc.name tc.args tasks now).2 now i := by
  simp only [storeBefore, List.take_succ_cons, runToolCalls]
  rw [runToolCalls_accum]

/-- The `i`-th message the loop emits is the `tool` message for the `i`-th
request, tagged with that request's call id and carrying the result of
dispatching it against the store as mutated by the preceding dispatches. -/
theorem runToolCalls_getD (tcs : List ToolCall) (tasks : List Task)
    (now : Int) (i : Nat) (h : i < tcs.length) :
    (runToolCalls tcs [] tasks now).1.getD i (Message.system "") =
      Message.tool ((tcs.getD i ⟨"", "", {}⟩).id)
        ((executeTool (tcs.getD i ⟨"", "", {}⟩).name
          (tcs.getD i ⟨"", "", {}⟩).args
          (storeBefore tcs tasks now i) now).1) := by
  induction tcs generalizing tasks i with
  | nil => simp at h
  | cons tc rest ih =>
      rw [runToolCalls_cons]
      cases i with
      | zero => simp [storeBefore, runToolCalls]
      | succ i =>
          simp only [List.getD_cons_succ]
          rw [storeBefore_succ]
          exact ih (executeTool tc.name tc.args tasks now).2 i
            (by simpa using h)

/-- C1: For an assistant message carrying the Tool Call Requests `tcs`,
the orchestration loop appends exactly `tcs.length` tool messages to the
transcript (the existing transcript is preserved as a prefix), and the
`i`-th appended message is tagged with the `i`-th request's call id and
carries the encoded result of dispatching that request, in the exact order
the model emitted the requests — no request is deduplicated or skipped. -/
theorem c1_tool_loop_order (tcs : List ToolCall) (convo : List Message)
    (tasks : List Task) (now : Int) :
    (runToolCalls tcs convo tasks now).1.length =
      convo.length + tcs.length ∧
    (runToolCalls tcs convo tasks now).1.take convo.length = convo ∧
    ∀ i : Nat, i < tcs.length →
      (runToolCalls tcs convo tasks now).1.getD (convo.length + i)
          (Message.system "") =
        Message.tool ((tcs.getD i ⟨"", "", {}⟩).id)
          ((executeTool (tcs.getD i ⟨"", "", {}⟩).name
            (tcs.getD i ⟨"", "", {}⟩).args
            (storeBefore tcs tasks now i) now).1) := by
  rw [runToolCalls_accum]
  refine ⟨by simp [runToolCalls_nil_length], by simp, ?_⟩
  intro i hi
  have hlen : convo.length ≤ convo.length + i := Nat.le_add_right _ _
  show (convo ++ (runToolCalls tcs [] tasks now).1).getD (convo.length + i)
      (Message.system "") = _
  rw [List.getD_append_right _ _ _ _ hlen]
  simpa using runToolCalls_getD tcs tasks now i hi

/-- Witness for C1: a two-request assistant turn (`create-task` then
`mark-complete`) appends two tool messages; the second is tagged
`call_2` and carries the success of marking task `7` complete in the
store the first dispatch already extended. -/
theorem c1_witness :
    (runToolCalls
        [⟨"call_1", "create-task", { title := .str "Buy milk" }⟩,
          ⟨"call_2", "mark-complete", { id := .num 7 }⟩]
        [Message.user "hi"] [⟨7, .str "x", .bool false⟩] 99).1.getD 2
        (Message.system "") =
      Message.tool "call_2" ToolResult.ok :=
  (c1_tool_loop_order
    [⟨"call_1", "create-task", { title := .str "Buy milk" }⟩,
      ⟨"call_2", "mark-complete", { id := .num 7 }⟩]
    [Message.user "hi"] [⟨7, .str "x", .bool false⟩] 99).2.2 1 (by decide)

/-- Witness for C10 (amended): the single-space identifier marks the
id-`0` task done. -/
theorem c10_witness :
    markCompleteByIdOrTitle (.str " ") [⟨0, .str "y", .bool false⟩] =
      (.ok, ([⟨0, .str "y", .bool false⟩] : List Task).map fun task =>
        if task.id = 0 then { task with done := .bool true } else task) :=
  (c10_amended_empty_identifier_guards
    [⟨0, .str "y", .bool false⟩]).2.2.2 " " (by decide) (by decide)

end MCP
